import Mathlib

/-!
Verification development for the seating-designer repository.

The definitions below are a shallow embedding of the plan model, its
mutators, the derived views, the chair geometry, and the version
persistence layer, translated from
`src/client/src/pages/seating-designer.tsx`, `src/server/routes.ts`
and the versions-storage module. JavaScript numbers are modelled as
`ℚ` (or `ℝ` in trigonometric geometry), optional fields as `Option`,
and arrays as `List`.
-/

namespace Seating

/-- Gender attribute of a guest (source union type "female" | "male"). -/
inductive GuestGender where
  | female
  | male
deriving DecidableEq, Repr

/-- Guest record (source type `Guest`). -/
structure Guest where
  id : String
  name : String
  gender : GuestGender
  photoUrl : Option String := none
deriving DecidableEq, Repr

/-- Chair record (source type `Chair`); `guestId` is an optional weak reference. -/
structure Chair where
  id : String
  guestId : Option String := none
deriving DecidableEq, Repr

/-- Table shape (source union type "round" | "rect"). -/
inductive TableShape where
  | round
  | rect
deriving DecidableEq, Repr

/-- Number-badge style (source union "classic" | "monogram" | "modern"). -/
inductive TableNumberStyle where
  | classic
  | monogram
  | modern
deriving DecidableEq, Repr

/-- Table record (source type `TableModel`); rotation is stored as a number
(here `ℚ`, cast to `ℝ` by the trigonometric geometry). -/
structure TableModel where
  id : String
  number : ℤ
  label : Option String := none
  shape : TableShape
  numberStyle : TableNumberStyle
  isVip : Option Bool := none
  x : ℚ
  y : ℚ
  rotation : ℚ
  chairs : List Chair
deriving DecidableEq, Repr

/-- Aggregate plan state: the guest list and the table list. -/
structure PlanState where
  guests : List Guest
  tables : List TableModel
deriving DecidableEq, Repr

/-- Source `clamp(n, min, max) = Math.max(min, Math.min(max, n))`. -/
def clampI (n lo hi : ℤ) : ℤ :=
  max lo (min hi n)

/-- Per-table body of the source `setChairsCount(tableId, count)`: on the
matching table, clamps the requested count to [2, 20]; growing appends
fresh empty chairs (ids produced by `uid`, modelled by the `fresh`
parameter applied to the same prefix string the source builds); shrinking
truncates from the end. -/
def setChairsCountTable (fresh : String → String) (tableId : String) (count : ℤ)
    (t : TableModel) : TableModel :=
  if t.id = tableId then
    if t.chairs.length = (clampI count 2 20).toNat then t
    else if t.chairs.length < (clampI count 2 20).toNat then
      { t with chairs := t.chairs ++
          (List.range ((clampI count 2 20).toNat - t.chairs.length)).map fun i =>
            { id := fresh (t.id ++ "c" ++ toString (t.chairs.length + i + 1)),
              guestId := none } }
    else { t with chairs := t.chairs.take (clampI count 2 20).toNat }
  else t

/-- Source `setChairsCount(tableId, count)`, mapped over the table list. -/
def setChairsCount (fresh : String → String) (tableId : String) (count : ℤ)
    (tables : List TableModel) : List TableModel :=
  tables.map (setChairsCountTable fresh tableId count)

/-- Source `assignGuest(tableId, chairId, guestId)`: on the matching table,
sets the matching chair to reference `guestId` (or clears it when `none`). -/
def assignGuest (tableId chairId : String) (guestId : Option String)
    (tables : List TableModel) : List TableModel :=
  tables.map fun t =>
    if t.id = tableId then
      { t with chairs := t.chairs.map fun c =>
          if c.id = chairId then { c with guestId := guestId } else c }
    else t

/-- Source `unassignGuestEverywhere(guestId)`: clears every chair reference
that is strictly equal to the given guest id. -/
def unassignGuestEverywhere (guestId : String)
    (tables : List TableModel) : List TableModel :=
  tables.map fun t =>
    { t with chairs := t.chairs.map fun c =>
        if c.guestId = some guestId then { c with guestId := none } else c }

/-- Source `removeGuest(guestId)`: unassigns everywhere, then filters the
guest out of the guest list. -/
def removeGuest (guestId : String) (st : PlanState) : PlanState :=
  { guests := st.guests.filter fun g => g.id ≠ guestId,
    tables := unassignGuestEverywhere guestId st.tables }

/-- JavaScript truthiness of an optional string (`undefined` and the empty
string are falsy), used where the source tests `c.guestId` directly. -/
def truthyId : Option String → Option String
  | some s => if s.isEmpty then none else some s
  | none => none

/-- Ids collected by the source `unassignedGuests` memo:
`c.guestId && assigned.add(c.guestId)` over all tables and chairs. -/
def assignedIds (tables : List TableModel) : List String :=
  tables.flatMap fun t => t.chairs.filterMap fun c => truthyId c.guestId

/-- Source derived view `unassignedGuests`: guests not referenced by any
chair, in guest-list order. -/
def unassignedGuests (guests : List Guest) (tables : List TableModel) : List Guest :=
  guests.filter fun g => !((assignedIds tables).contains g.id)

/-- All chair guest references of one chair list, in order. -/
def chairAssigns (chairs : List Chair) : List String :=
  chairs.filterMap fun c => c.guestId

/-- All chair guest references of the whole plan, in order. -/
def seatAssignments (tables : List TableModel) : List String :=
  tables.flatMap fun t => chairAssigns t.chairs

/-- One-seat-per-guest invariant: no two chairs reference the same guest. -/
def NoDoubleSeat (tables : List TableModel) : Prop :=
  (seatAssignments tables).Nodup

instance (tables : List TableModel) : Decidable (NoDoubleSeat tables) := by
  unfold NoDoubleSeat
  infer_instance

/-- Comparator used by the source `guestsByTable` memo:
`[...tables].sort((a, b) => a.number - b.number)`. -/
def tableLE (a b : TableModel) : Prop :=
  a.number ≤ b.number

instance : DecidableRel tableLE :=
  fun a b => inferInstanceAs (Decidable (a.number ≤ b.number))

instance : IsTotal TableModel tableLE :=
  ⟨fun a b => le_total a.number b.number⟩

instance : IsTrans TableModel tableLE :=
  ⟨fun _ _ _ hab hbc => le_trans hab hbc⟩

/-- Stable sort of the tables by display number, modelling the stable
JavaScript `Array.prototype.sort` with the numeric comparator. -/
def sortTables (tables : List TableModel) : List TableModel :=
  List.insertionSort tableLE tables

/-- One seat of the `guestsByTable` projection. -/
structure SeatView where
  chairId : String
  seatNumber : ℕ
  guest : Option Guest
deriving DecidableEq, Repr

/-- One table of the `guestsByTable` projection. -/
structure TableView where
  tableId : String
  tableNumber : ℤ
  shape : TableShape
  isVip : Bool
  seats : List SeatView
deriving DecidableEq, Repr

/-- Seat views of one chair list: seat number is the 1-based chair index and
the guest is resolved by id lookup (`c.guestId ? guests.find(...) : undefined`). -/
def seatViewsOf (guests : List Guest) (chairs : List Chair) : List SeatView :=
  chairs.enum.map fun ic =>
    { chairId := ic.2.id,
      seatNumber := ic.1 + 1,
      guest := match truthyId ic.2.guestId with
        | some gid => guests.find? fun g => g.id == gid
        | none => none }

/-- Source derived view `guestsByTable`: tables sorted by number ascending,
each exposing its seats in chair order. -/
def guestsByTable (guests : List Guest) (tables : List TableModel) : List TableView :=
  (sortTables tables).map fun t =>
    { tableId := t.id,
      tableNumber := t.number,
      shape := t.shape,
      isVip := t.isVip.getD false,
      seats := seatViewsOf guests t.chairs }

/-- Character class of the source regular expression `[",\r\n]`. -/
def csvSpecialChar (c : Char) : Bool :=
  c == '"' || c == ',' || c == '\r' || c == '\n'

/-- Spec-worded predicate: the field contains a comma, a quote, or a newline
character (LF or CR). Stated from the specification text for comparison with
the predicate the code tests. -/
def specNeedsQuoting (s : String) : Bool :=
  s.data.any fun c => c == ',' || c == '"' || c == '\n' || c == '\r'

/-- Source test `/[",\r\n]/.test(value)`. -/
def needsQuoting (s : String) : Bool :=
  s.data.any csvSpecialChar

/-- Source `value.replace(/"/g, '""')`: every quote is doubled. -/
def doubleQuotes (s : String) : String :=
  ⟨s.data.flatMap fun c => if c == '"' then ['"', '"'] else [c]⟩

/-- Source `escapeCsvCell`. -/
def escapeCsvCell (s : String) : String :=
  if needsQuoting s then "\"" ++ doubleQuotes s ++ "\"" else s

/-- Gender column text of the CSV export. -/
def genderStr : GuestGender → String
  | .female => "female"
  | .male => "male"

/-- CSV header row of `exportToCsv`. -/
def csvHeader : List String :=
  ["Table Number", "VIP", "Seat", "Guest Name", "Gender"]

/-- One per-seat CSV row of `exportToCsv`. -/
def seatRow (tableNumber : ℤ) (isVip : Bool) (s : SeatView) : List String :=
  [toString tableNumber,
   if isVip then "Yes" else "",
   toString s.seatNumber,
   (s.guest.map Guest.name).getD "",
   (s.guest.map fun g => genderStr g.gender).getD ""]

/-- One unassigned-guest CSV row of `exportToCsv`. -/
def unassignedRow (g : Guest) : List String :=
  ["", "", "", g.name, genderStr g.gender]

/-- Rows pushed by `exportToCsv`: the header, then one row per seat grouped
by table via `guestsByTable`, then one row per unassigned guest. -/
def exportRows (guests : List Guest) (tables : List TableModel) : List (List String) :=
  csvHeader ::
    ((guestsByTable guests tables).flatMap fun tv =>
        tv.seats.map (seatRow tv.tableNumber tv.isVip))
    ++ (unassignedGuests guests tables).map unassignedRow

/-- Final CSV text: rows escaped cell-wise, joined by commas and CRLF. -/
def exportCsvString (guests : List Guest) (tables : List TableModel) : String :=
  String.intercalate "\r\n"
    ((exportRows guests tables).map fun row =>
      String.intercalate "," (row.map escapeCsvCell))

/-- Radius used for the interactive seat markers:
`const chairRadius = t.shape === "rect" ? 80 : 70`. -/
def chairRadius : TableShape → ℚ
  | .rect => 80
  | .round => 70

/-- Source `ChairDot` position: angle `(2π / total) · index + rotation`,
offset `(cos(angle) · radius, sin(angle) · radius)` from the table center. -/
noncomputable def chairDotPos (index total : ℕ) (radius rotation : ℝ) : ℝ × ℝ :=
  let angle := Real.pi * 2 / (total : ℝ) * (index : ℝ) + rotation
  (Real.cos angle * radius, Real.sin angle * radius)

/-- Source `Math.ceil(total / 4)` for a natural chair count. -/
def rectPerSide (total : ℕ) : ℕ :=
  (total + 3) / 4

/-- Interpolation fraction along a rectangular side:
`perSide <= 1 ? 0.5 : posOnSide / (perSide - 1)`. -/
def rectT (index total : ℕ) : ℚ :=
  if rectPerSide total ≤ 1 then 1 / 2
  else ((index % rectPerSide total : ℕ) : ℚ) / (((rectPerSide total : ℕ) : ℚ) - 1)

/-- Source `ChairRect` position: the decorative chair dot sits directly on
the footprint edge, with no outward offset. -/
def chairRectPos (index total : ℕ) (w h : ℚ) : ℚ × ℚ :=
  let side := index / rectPerSide total
  let t := rectT index total
  if side = 0 then (-w / 2 + t * w, -h / 2)
  else if side = 1 then (w / 2, -h / 2 + t * h)
  else if side = 2 then (-w / 2 + t * w, h / 2)
  else (-w / 2, -h / 2 + t * h)

/-- Interactive seat-marker position for a rectangular table (footprint
126 × 74), offset outward by 18 units from the footprint edge; the `rect`
branch of the marker geometry never reads the rotation. -/
def rectSeatPos (index total : ℕ) : ℚ × ℚ :=
  let side := index / rectPerSide total
  let t := rectT index total
  let w : ℚ := 126
  let h : ℚ := 74
  if side = 0 then (-w / 2 + t * w, -h / 2 - 18)
  else if side = 1 then (w / 2 + 18, -h / 2 + t * h)
  else if side = 2 then (-w / 2 + t * w, h / 2 + 18)
  else (-w / 2 - 18, -h / 2 + t * h)

/-- Interactive seat-marker geometry of the page (the block computing
`seatX`/`seatY`): round tables use the trigonometric placement at radius
`chairRadius round`; rectangular tables use the side interpolation with the
18-unit outward offset and ignore the rotation argument. -/
noncomputable def seatMarkerPos (shape : TableShape) (index total : ℕ)
    (rotation : ℝ) : ℝ × ℝ :=
  match shape with
  | .round =>
    let angle := Real.pi * 2 / (total : ℝ) * (index : ℝ) + rotation
    let r : ℝ := (chairRadius .round : ℚ)
    (Real.cos angle * r, Real.sin angle * r)
  | .rect =>
    (((rectSeatPos index total).1 : ℝ), ((rectSeatPos index total).2 : ℝ))

/-- Outward unit direction away from the footprint for each rectangular
side, per the specification wording of the 18-unit offset. -/
def outwardDir (side : ℕ) : ℚ × ℚ :=
  if side = 0 then (0, -1)
  else if side = 1 then (1, 0)
  else if side = 2 then (0, 1)
  else (-1, 0)

/-- Stage size record. -/
structure StageSize where
  w : ℚ
  h : ℚ
deriving DecidableEq, Repr

/-- Pan offset record. -/
structure Pan where
  x : ℚ
  y : ℚ
deriving DecidableEq, Repr

/-- Request body of `POST /api/versions`; `none` in `guests`/`tables` models
a missing or non-array value. -/
structure PostBody where
  name : Option String := none
  guests : Option (List Guest) := none
  tables : Option (List TableModel) := none
  stageSize : Option StageSize := none
  pan : Option Pan := none
deriving DecidableEq, Repr

/-- Storage-module `VersionPayload` (optional stage size and pan declared). -/
structure VersionPayload where
  name : String
  guests : List Guest
  tables : List TableModel
  stageSize : Option StageSize := none
  pan : Option Pan := none
deriving DecidableEq, Repr

/-- Storage-module `VersionMeta`. -/
structure VersionMeta where
  id : String
  name : String
  savedAt : String
deriving DecidableEq, Repr

/-- Storage-module `VersionFull`: the record written to disk. -/
structure VersionFull where
  id : String
  name : String
  savedAt : String
  guests : List Guest
  tables : List TableModel
  stageSize : Option StageSize := none
  pan : Option Pan := none
deriving DecidableEq, Repr

/-- Storage-module `saveVersion`: the object literal written to disk holds
only `id`, `name`, `savedAt`, `guests` and `tables`; the optional stage size
and pan of the payload are not copied into it. The generated id and
timestamp are parameters of the embedding. -/
def saveVersion (id savedAt : String) (payload : VersionPayload) : VersionFull :=
  { id := id,
    name := payload.name,
    savedAt := savedAt,
    guests := payload.guests,
    tables := payload.tables,
    stageSize := none,
    pan := none }

/-- Name normalisation of the POST route:
`typeof name === "string" ? name.trim() || "Unnamed version" : "Unnamed version"`. -/
def effectiveName : Option String → String
  | some s => if s.trim = "" then "Unnamed version" else s.trim
  | none => "Unnamed version"

/-- Response of the POST route. -/
inductive PostResponse where
  | badRequest
  | created (meta : VersionMeta) (stored : VersionFull)
deriving DecidableEq, Repr

/-- `POST /api/versions` handler of `routes.ts`: rejects missing or
non-array `guests`/`tables` with 400; otherwise calls `saveVersion` with
only the name, guests and tables drawn from the body, and answers 201 with
the returned metadata. -/
def handlePostVersions (id savedAt : String) (body : PostBody) : PostResponse :=
  match body.guests, body.tables with
  | some gs, some ts =>
    .created { id := id, name := effectiveName body.name, savedAt := savedAt }
      (saveVersion id savedAt
        { name := effectiveName body.name, guests := gs, tables := ts })
  | _, _ => .badRequest

/-- Pan restoration of the client `loadServerVersion`:
`data.pan ? setPan(data.pan) : setPan({x: 0, y: 0})`. -/
def loadPanOf (v : VersionFull) : Pan :=
  v.pan.getD { x := 0, y := 0 }

/-! Sample data reused by concrete witnesses and counterexamples. -/

/-- Sample guest Alice. -/
def exG1 : Guest :=
  { id := "g1", name := "Alice", gender := .female }

/-- Sample guest Bob. -/
def exG2 : Guest :=
  { id := "g2", name := "Bob", gender := .male }

/-- Sample round table with guest g1 on chair c1 and chair c2 empty. -/
def cexTable : TableModel :=
  { id := "T", number := 1, shape := .round, numberStyle := .classic,
    x := 0, y := 0, rotation := 0,
    chairs := [{ id := "c1", guestId := some "g1" }, { id := "c2" }] }

/-- Sample one-table plan. -/
def cexTables : List TableModel :=
  [cexTable]

/-- Sample table with an id different from "T". -/
def exTableU : TableModel :=
  { id := "U", number := 2, shape := .rect, numberStyle := .modern,
    x := 40, y := 40, rotation := 0,
    chairs := [{ id := "u1" }, { id := "u2", guestId := some "g2" }] }

/-! Helper lemmas shared between claims. -/

/-- Chair transformation applied by `unassignGuestEverywhere`. -/
def clearChair (gid : String) (c : Chair) : Chair :=
  if c.guestId = some gid then { c with guestId := none } else c

theorem unassign_eq_map (gid : String) (tables : List TableModel) :
    unassignGuestEverywhere gid tables
      = tables.map fun t => { t with chairs := t.chairs.map (clearChair gid) } :=
  rfl

theorem clearChair_idem (gid : String) (c : Chair) :
    clearChair gid (clearChair gid c) = clearChair gid c := by
  unfold clearChair
  by_cases h : c.guestId = some gid <;> simp [h]

theorem unassign_length (gid : String) (tables : List TableModel) :
    (unassignGuestEverywhere gid tables).length = tables.length := by
  simp [unassign_eq_map]

theorem unassign_fields (gid : String) (tables : List TableModel) (i : ℕ) :
    ((unassignGuestEverywhere gid tables)[i]?).map
        (fun t => (t.id, t.number, t.label, t.shape, t.numberStyle, t.isVip,
                   t.x, t.y, t.rotation, t.chairs.map Chair.id))
      = (tables[i]?).map
        (fun t => (t.id, t.number, t.label, t.shape, t.numberStyle, t.isVip,
                   t.x, t.y, t.rotation, t.chairs.map Chair.id)) := by
  rw [unassign_eq_map, List.getElem?_map]
  cases h : tables[i]? with
  | none => rfl
  | some t =>
    simp only [Option.map_some']
    have : (t.chairs.map (clearChair gid)).map Chair.id = t.chairs.map Chair.id := by
      rw [List.map_map]
      apply List.map_congr_left
      intro c _
      unfold clearChair
      by_cases hc : c.guestId = some gid <;> simp [hc]
    simp [this]

theorem unassign_chair (gid : String) (tables : List TableModel) (i j : ℕ) :
    ((unassignGuestEverywhere gid tables)[i]?.bind fun t => t.chairs[j]?)
      = ((tables[i]?.bind fun t => t.chairs[j]?)).map (clearChair gid) := by
  rw [unassign_eq_map, List.getElem?_map]
  cases h : tables[i]? with
  | none => rfl
  | some t => simp [List.getElem?_map]

theorem unassign_idem (gid : String) (tables : List TableModel) :
    unassignGuestEverywhere gid (unassignGuestEverywhere gid tables)
      = unassignGuestEverywhere gid tables := by
  simp only [unassign_eq_map]
  rw [List.map_map]
  apply List.map_congr_left
  intro t _
  simp only [Function.comp]
  rw [List.map_map]
  have : t.chairs.map (clearChair gid ∘ clearChair gid)
      = t.chairs.map (clearChair gid) := by
    apply List.map_congr_left
    intro c _
    exact clearChair_idem gid c
  rw [this]

theorem unassign_no_ref (gid : String) (tables : List TableModel) :
    ∀ t ∈ unassignGuestEverywhere gid tables, ∀ c ∈ t.chairs,
      c.guestId ≠ some gid := by
  rw [unassign_eq_map]
  intro t ht c hc
  obtain ⟨t0, _, rfl⟩ := List.mem_map.mp ht
  obtain ⟨c0, _, rfl⟩ := List.mem_map.mp hc
  unfold clearChair
  by_cases h : c0.guestId = some gid <;> simp [h]

/-- C10: `unassignGuestEverywhere(g)` clears exactly the chair references
equal to `g`: the number and order of tables, every table field, every chair
identity and order are preserved; each chair is unchanged unless its guest
reference equals `g`, in which case it becomes empty; and the operation is
idempotent. -/
theorem unassignGuestEverywhere_spec (gid : String) (tables : List TableModel) :
    ((unassignGuestEverywhere gid tables).length = tables.length)
  ∧ (∀ i : ℕ, ((unassignGuestEverywhere gid tables)[i]?).map
        (fun t => (t.id, t.number, t.label, t.shape, t.numberStyle, t.isVip,
                   t.x, t.y, t.rotation, t.chairs.map Chair.id))
      = (tables[i]?).map
        (fun t => (t.id, t.number, t.label, t.shape, t.numberStyle, t.isVip,
                   t.x, t.y, t.rotation, t.chairs.map Chair.id)))
  ∧ (∀ i j : ℕ, ((unassignGuestEverywhere gid tables)[i]?.bind fun t => t.chairs[j]?)
      = ((tables[i]?.bind fun t => t.chairs[j]?)).map
          (fun c => if c.guestId = some gid then { c with guestId := none } else c))
  ∧ unassignGuestEverywhere gid (unassignGuestEverywhere gid tables)
      = unassignGuestEverywhere gid tables :=
  ⟨unassign_length gid tables,
   unassign_fields gid tables,
   fun i j => unassign_chair gid tables i j,
   unassign_idem gid tables⟩

/-- C4: `removeGuest(G)` removes `G` from the guest list, keeps every other
guest, leaves no chair referencing `G`, and leaves all table fields, chair
identities, and chair assignments other than those of `G` unchanged. -/
theorem removeGuest_spec (gid : String) (st : PlanState) :
    (∀ g ∈ (removeGuest gid st).guests, g.id ≠ gid)
  ∧ (∀ g ∈ st.guests, g.id ≠ gid → g ∈ (removeGuest gid st).guests)
  ∧ ((removeGuest gid st).guests = st.guests.filter fun g => g.id ≠ gid)
  ∧ (∀ t ∈ (removeGuest gid st).tables, ∀ c ∈ t.chairs, c.guestId ≠ some gid)
  ∧ ((removeGuest gid st).tables.length = st.tables.length)
  ∧ (∀ i : ℕ, (((removeGuest gid st).tables)[i]?).map
        (fun t => (t.id, t.number, t.label, t.shape, t.numberStyle, t.isVip,
                   t.x, t.y, t.rotation, t.chairs.map Chair.id))
      = ((st.tables)[i]?).map
        (fun t => (t.id, t.number, t.label, t.shape, t.numberStyle, t.isVip,
                   t.x, t.y, t.rotation, t.chairs.map Chair.id)))
  ∧ (∀ i j : ℕ, (((removeGuest gid st).tables)[i]?.bind fun t => t.chairs[j]?)
      = (((st.tables)[i]?.bind fun t => t.chairs[j]?)).map
          (fun c => if c.guestId = some gid then { c with guestId := none } else c)) := by
  refine ⟨?_, ?_, rfl, ?_, ?_, ?_, ?_⟩
  · intro g hg
    have := List.of_mem_filter hg
    simpa using this
  · intro g hg hne
    apply List.mem_filter.mpr
    exact ⟨hg, by simpa using hne⟩
  · exact unassign_no_ref gid st.tables
  · exact unassign_length gid st.tables
  · exact unassign_fields gid st.tables
  · exact fun i j => unassign_chair gid st.tables i j

/-- Witness for C4 at a concrete plan: Bob survives the deletion of Alice. -/
theorem removeGuest_spec_witness :
    exG2 ∈ (removeGuest "g1" { guests := [exG1, exG2], tables := cexTables }).guests :=
  (removeGuest_spec "g1" { guests := [exG1, exG2], tables := cexTables }).2.1
    exG2 (by decide) (by decide)

/-- C2: every `setChairsCount` call leaves the table list the same length;
the targeted table ends with exactly `clamp(n, 2, 20)` chairs (a value always
within [2, 20]); tables with a different id are returned unchanged. -/
theorem setChairsCount_clamps (fresh : String → String) (tid : String) (n : ℤ)
    (tables : List TableModel) (i : ℕ) :
    ((setChairsCount fresh tid n tables).length = tables.length)
  ∧ (((setChairsCount fresh tid n tables)[i]?).map (fun t => t.chairs.length)
      = (tables[i]?).map (fun t =>
          if t.id = tid then (clampI n 2 20).toNat else t.chairs.length))
  ∧ (∀ t : TableModel, tables[i]? = some t → t.id ≠ tid →
      (setChairsCount fresh tid n tables)[i]? = some t)
  ∧ 2 ≤ (clampI n 2 20).toNat ∧ (clampI n 2 20).toNat ≤ 20 := by
  have hlo : (2 : ℤ) ≤ clampI n 2 20 := le_max_left _ _
  have hhi : clampI n 2 20 ≤ 20 := max_le (by norm_num) (min_le_left _ _)
  refine ⟨by simp [setChairsCount], ?_, ?_, by omega, by omega⟩
  · rw [setChairsCount, List.getElem?_map]
    cases h : tables[i]? with
    | none => rfl
    | some t =>
      simp only [Option.map_some', setChairsCountTable]
      by_cases hid : t.id = tid
      · simp only [hid, if_true]
        split_ifs with heq hlt
        · simp [heq]
        · simp only [List.length_append, List.length_map, List.length_range,
            Option.some.injEq]
          omega
        · simp only [List.length_take, Option.some.injEq]
          omega
      · simp [hid]
  · intro t ht hne
    rw [setChairsCount, List.getElem?_map, ht]
    simp [setChairsCountTable, hne]

/-- Witness for C2: a request of −5 on a 2-chair table clamps to 2 chairs,
and the non-targeted table is returned unchanged. -/
theorem setChairsCount_clamps_witness :
    ((setChairsCount (fun s => s) "T" (-5) [cexTable, exTableU])[1]? = some exTableU)
  ∧ (((setChairsCount (fun s => s) "T" (-5) [cexTable, exTableU])[0]?).map
        (fun t => t.chairs.length) = some 2) :=
  ⟨(setChairsCount_clamps (fun s => s) "T" (-5) [cexTable, exTableU] 1).2.2.1
      exTableU rfl (by decide),
   by
    have h := (setChairsCount_clamps (fun s => s) "T" (-5) [cexTable, exTableU] 0).2.1
    rw [h]
    decide⟩

/-- C9: calling `assignGuest` with a table id matching no table, or with a
chair id matching no chair of any matching table, returns the table
collection unchanged. -/
theorem assignGuest_missing_noop (tid cid : String) (v : Option String)
    (tables : List TableModel)
    (h : ∀ t ∈ tables, t.id = tid → ∀ c ∈ t.chairs, c.id ≠ cid) :
    assignGuest tid cid v tables = tables := by
  unfold assignGuest
  conv_rhs => rw [← List.map_id tables]
  apply List.map_congr_left
  intro t ht
  by_cases hid : t.id = tid
  · have hch : (t.chairs.map fun c => if c.id = cid then { c with guestId := v } else c)
        = t.chairs := by
      conv_rhs => rw [← List.map_id t.chairs]
      apply List.map_congr_left
      intro c hc
      simp [h t ht hid c hc]
    rw [if_pos hid, hch]
    rfl
  · simp [hid]

/-- Witness for C9: assigning to an unknown table id, and to a known table
with an unknown chair id, both leave the concrete plan unchanged. -/
theorem assignGuest_missing_noop_witness :
    assignGuest "nope" "c1" (some "g2") cexTables = cexTables
  ∧ assignGuest "T" "c9" (some "g2") cexTables = cexTables :=
  ⟨assignGuest_missing_noop "nope" "c1" (some "g2") cexTables (by decide),
   assignGuest_missing_noop "T" "c9" (some "g2") cexTables (by decide)⟩

end Seating

namespace Seating

/-- C5: for a round table with n chairs and rotation r, the interactive seat
marker and the decorative chair dot both sit at angle `(2π/n)·i + r` and
radius 70 from the center, at offset `(cos(angle)·70, sin(angle)·70)`; for 8
chairs at rotation 0, chair 0 sits at `(70, 0)` and chair 2 at `(0, 70)`. -/
theorem round_chair_geometry :
    (∀ (i n : ℕ) (rot : ℝ),
        seatMarkerPos .round i n rot
          = (Real.cos (Real.pi * 2 / (n : ℝ) * (i : ℝ) + rot) * 70,
             Real.sin (Real.pi * 2 / (n : ℝ) * (i : ℝ) + rot) * 70))
  ∧ (∀ (i n : ℕ) (rot : ℝ),
        chairDotPos i n ((chairRadius .round : ℚ) : ℝ) rot = seatMarkerPos .round i n rot)
  ∧ seatMarkerPos .round 0 8 0 = (70, 0)
  ∧ seatMarkerPos .round 2 8 0 = (0, 70) := by
  have hmain : ∀ (i n : ℕ) (rot : ℝ),
      seatMarkerPos .round i n rot
        = (Real.cos (Real.pi * 2 / (n : ℝ) * (i : ℝ) + rot) * 70,
           Real.sin (Real.pi * 2 / (n : ℝ) * (i : ℝ) + rot) * 70) := by
    intro i n rot
    simp only [seatMarkerPos, chairRadius]
    norm_num
  refine ⟨hmain, ?_, ?_, ?_⟩
  · intro i n rot
    rw [hmain]
    simp only [chairDotPos, chairRadius]
    norm_num
  · rw [hmain]
    have h0 : Real.pi * 2 / ((8 : ℕ) : ℝ) * ((0 : ℕ) : ℝ) + 0 = 0 := by
      push_cast
      ring
    rw [h0, Real.cos_zero, Real.sin_zero]
    norm_num
  · rw [hmain]
    have h2 : Real.pi * 2 / ((8 : ℕ) : ℝ) * ((2 : ℕ) : ℝ) + 0 = Real.pi / 2 := by
      push_cast
      ring
    rw [h2, Real.cos_pi_div_two, Real.sin_pi_div_two]
    norm_num

/-- C6: for a rectangular table (footprint 126×74) with n chairs, chair i is
placed on side `i / ceil(n/4)` at position `i mod ceil(n/4)` with fraction
`t = pos/(perSide−1)` (or 1/2 when perSide ≤ 1) interpolated along the side;
the interactive seat marker is the on-edge chair-dot position pushed 18
units along the outward normal of its side, while the decorative dot has no
offset; rectangular placement ignores the rotation; with 12 chairs each side
receives exactly 3 chairs and the first and last chair of each side land on
the corners (t = 0 and t = 1). -/
theorem rect_chair_geometry :
    (∀ (i n : ℕ) (rot : ℝ),
        seatMarkerPos .rect i n rot
          = (((rectSeatPos i n).1 : ℝ), ((rectSeatPos i n).2 : ℝ)))
  ∧ (∀ (i n : ℕ) (rot rot' : ℝ),
        seatMarkerPos .rect i n rot = seatMarkerPos .rect i n rot')
  ∧ (∀ i n : ℕ, rectSeatPos i n
      = ((chairRectPos i n 126 74).1 + 18 * (outwardDir (i / rectPerSide n)).1,
         (chairRectPos i n 126 74).2 + 18 * (outwardDir (i / rectPerSide n)).2))
  ∧ rectPerSide 12 = 3
  ∧ ((List.range 4).map fun s =>
        ((List.range 12).filter fun i => i / rectPerSide 12 == s).length) = [3, 3, 3, 3]
  ∧ (rectT 0 12 = 0 ∧ rectT 2 12 = 1 ∧ rectT 3 12 = 0 ∧ rectT 5 12 = 1
     ∧ rectT 6 12 = 0 ∧ rectT 8 12 = 1 ∧ rectT 9 12 = 0 ∧ rectT 11 12 = 1)
  ∧ (chairRectPos 0 12 126 74 = (-63, -37) ∧ chairRectPos 2 12 126 74 = (63, -37)
     ∧ chairRectPos 9 12 126 74 = (-63, -37) ∧ chairRectPos 11 12 126 74 = (-63, 37)) := by
  refine ⟨fun i n rot => rfl, fun i n rot rot' => rfl, ?_, by decide, by decide,
    by norm_num [rectT, rectPerSide],
    by norm_num [chairRectPos, rectT, rectPerSide]⟩
  intro i n
  simp only [rectSeatPos, chairRectPos, outwardDir]
  split_ifs <;> exact Prod.ext (by ring) (by ring)

end Seating

namespace Seating

/-- Request body of a concrete save: guests, tables, a stage size and a pan
offset are all submitted, as the client does. -/
def bugBody : PostBody :=
  { name := none,
    guests := some [exG1],
    tables := some [cexTable],
    stageSize := some { w := 900, h := 700 },
    pan := some { x := 5, y := 7 } }

/-- Version record the persistence layer actually writes for `bugBody`. -/
def bugStored : VersionFull :=
  { id := "id1", name := "Unnamed version", savedAt := "2026-01-01T00:00:00.000Z",
    guests := [exG1], tables := [cexTable] }

/-- C7: the POST route accepts the save and the storage layer round-trips
the guests and tables — but the stored version holds no stage size and no
pan, so loading it yields pan (0, 0) instead of the submitted (5, 7). This
contradicts the spec sentence that a version snapshots exactly the guests,
tables, stage size, and pan. -/
theorem postVersions_drops_stage_and_pan :
    handlePostVersions "id1" "2026-01-01T00:00:00.000Z" bugBody
      = .created
          { id := "id1", name := "Unnamed version",
            savedAt := "2026-01-01T00:00:00.000Z" }
          bugStored
  ∧ bugStored.guests = [exG1]
  ∧ bugStored.tables = [cexTable]
  ∧ bugBody.stageSize = some { w := 900, h := 700 }
  ∧ bugBody.pan = some { x := 5, y := 7 }
  ∧ bugStored.stageSize = none
  ∧ bugStored.pan = none
  ∧ loadPanOf bugStored = { x := 0, y := 0 }
  ∧ loadPanOf bugStored ≠ { x := 5, y := 7 } := by
  refine ⟨?_, rfl, rfl, rfl, rfl, rfl, rfl, rfl, by decide⟩
  rfl

end Seating

namespace Seating

/-- Chair transformation applied by `assignGuest` on the matching table. -/
def setChairG (cid gid : String) (c : Chair) : Chair :=
  if c.id = cid then { c with guestId := some gid } else c

theorem assignGuest_eq_map (tid cid gid : String) (tables : List TableModel) :
    assignGuest tid cid (some gid) tables
      = tables.map fun t =>
          if t.id = tid then { t with chairs := t.chairs.map (setChairG cid gid) }
          else t :=
  rfl

theorem assign_nomatch_eq (tid cid : String) (v : Option String)
    (tables : List TableModel) (h : ∀ t ∈ tables, t.id ≠ tid) :
    assignGuest tid cid v tables = tables := by
  unfold assignGuest
  conv_rhs => rw [← List.map_id tables]
  apply List.map_congr_left
  intro t ht
  simp [h t ht]

theorem seatAssignments_cons (a : TableModel) (l : List TableModel) :
    seatAssignments (a :: l) = chairAssigns a.chairs ++ seatAssignments l :=
  rfl

theorem count_chairAssigns_setChairG (cid gid x : String) (chairs : List Chair)
    (h : (chairs.map Chair.id).Nodup) :
    (chairAssigns (chairs.map (setChairG cid gid))).count x
      ≤ (if x = gid then 1 else 0) + (chairAssigns chairs).count x := by
  induction chairs with
  | nil => simp [chairAssigns]
  | cons c cs ih =>
    rw [List.map_cons] at h
    have hni := (List.nodup_cons.mp h).1
    have hcs := (List.nodup_cons.mp h).2
    by_cases hc : c.id = cid
    · have hmap : cs.map (setChairG cid gid) = cs := by
        conv_rhs => rw [← List.map_id cs]
        apply List.map_congr_left
        intro c2 hc2
        have hne : c2.id ≠ cid := by
          intro he
          apply hni
          rw [hc]
          exact he ▸ List.mem_map_of_mem Chair.id hc2
        simp [setChairG, hne]
      have hset : setChairG cid gid c = { c with guestId := some gid } := by
        simp [setChairG, hc]
      rw [List.map_cons, hmap, hset]
      have h1 : chairAssigns ({ c with guestId := some gid } :: cs)
          = gid :: chairAssigns cs := by
        simp [chairAssigns, List.filterMap_cons]
      rw [h1]
      have h2 : (chairAssigns cs).count x ≤ (chairAssigns (c :: cs)).count x := by
        cases hg : c.guestId <;>
          simp [chairAssigns, List.filterMap_cons, hg, List.count_cons]
      by_cases hx : x = gid
      · subst hx
        rw [if_pos rfl, List.count_cons_self]
        omega
      · rw [if_neg hx, List.count_cons_of_ne hx]
        omega
    · have hset : setChairG cid gid c = c := by
        simp [setChairG, hc]
      rw [List.map_cons, hset]
      have := ih hcs
      cases hg : c.guestId with
      | none =>
        have e1 : chairAssigns (c :: cs.map (setChairG cid gid))
            = chairAssigns (cs.map (setChairG cid gid)) := by
          simp [chairAssigns, List.filterMap_cons, hg]
        have e2 : chairAssigns (c :: cs) = chairAssigns cs := by
          simp [chairAssigns, List.filterMap_cons, hg]
        rw [e1, e2]
        omega
      | some v =>
        have e1 : chairAssigns (c :: cs.map (setChairG cid gid))
            = v :: chairAssigns (cs.map (setChairG cid gid)) := by
          simp [chairAssigns, List.filterMap_cons, hg]
        have e2 : chairAssigns (c :: cs) = v :: chairAssigns cs := by
          simp [chairAssigns, List.filterMap_cons, hg]
        rw [e1, e2, List.count_cons, List.count_cons]
        omega

theorem count_seatAssignments_assign (tid cid gid x : String)
    (tables : List TableModel)
    (htid : (tables.map TableModel.id).Nodup)
    (hcid : ∀ t ∈ tables, (t.chairs.map Chair.id).Nodup) :
    (seatAssignments (assignGuest tid cid (some gid) tables)).count x
      ≤ (if x = gid then 1 else 0) + (seatAssignments tables).count x := by
  induction tables with
  | nil => simp [assignGuest, seatAssignments]
  | cons t ts ih =>
    rw [List.map_cons] at htid
    have hni := (List.nodup_cons.mp htid).1
    have hts := (List.nodup_cons.mp htid).2
    have hcons : assignGuest tid cid (some gid) (t :: ts)
        = (if t.id = tid
            then { t with chairs := t.chairs.map (setChairG cid gid) } else t)
          :: assignGuest tid cid (some gid) ts :=
      rfl
    rw [hcons]
    by_cases ht : t.id = tid
    · rw [if_pos ht]
      have hrest : assignGuest tid cid (some gid) ts = ts := by
        apply assign_nomatch_eq
        intro t2 ht2 he
        apply hni
        rw [ht]
        exact he ▸ List.mem_map_of_mem TableModel.id ht2
      rw [hrest, seatAssignments_cons, seatAssignments_cons,
        List.count_append, List.count_append]
      dsimp only
      have h1 := count_chairAssigns_setChairG cid gid x t.chairs
        (hcid t (List.mem_cons_self t ts))
      omega
    · rw [if_neg ht, seatAssignments_cons, seatAssignments_cons,
        List.count_append, List.count_append]
      have h2 := ih hts fun t2 h2 => hcid t2 (List.mem_cons_of_mem _ h2)
      omega

theorem assign_preserves_nodup (tid cid gid : String) (tables : List TableModel)
    (hnd : NoDoubleSeat tables) (hun : gid ∉ seatAssignments tables)
    (htid : (tables.map TableModel.id).Nodup)
    (hcid : ∀ t ∈ tables, (t.chairs.map Chair.id).Nodup) :
    NoDoubleSeat (assignGuest tid cid (some gid) tables) := by
  rw [NoDoubleSeat, List.nodup_iff_count_le_one] at hnd ⊢
  intro x
  have h := count_seatAssignments_assign tid cid gid x tables htid hcid
  by_cases hx : x = gid
  · subst hx
    have h0 : (seatAssignments tables).count x = 0 := List.count_eq_zero.mpr hun
    rw [if_pos rfl] at h
    omega
  · have h1 := hnd x
    rw [if_neg hx] at h
    omega

/-- C1 counterexample: with guest g1 seated at chair c1, calling
`assignGuest` toward chair c2 leaves c1 still holding g1 and makes two
chairs reference g1 simultaneously — the claimed "C1 becomes empty"
behaviour does not hold for the seat-assignment operation. -/
theorem assignGuest_double_booking_cex :
    (((assignGuest "T" "c2" (some "g1") cexTables)[0]?).bind
        fun t => (t.chairs[0]?).map Chair.guestId) = some (some "g1")
  ∧ seatAssignments (assignGuest "T" "c2" (some "g1") cexTables) = ["g1", "g1"]
  ∧ ¬ NoDoubleSeat (assignGuest "T" "c2" (some "g1") cexTables) := by
  refine ⟨by decide, by decide, by decide⟩

/-- C1 (amended): `assignGuest` sets only the target chair and never clears
a prior seat; in the discipline of the interaction controller — which only
assigns guests drawn from the unassigned pool — the assignment preserves the
one-seat-per-guest invariant: if no two chairs share a guest, table and
chair ids are unique, and G is seated nowhere, then after `assignGuest` the
matching chair of the matching table holds G, every other chair is
unchanged, and still no two chairs reference the same guest. -/
theorem assignGuest_from_pool_spec (tid cid gid : String)
    (tables : List TableModel)
    (hnd : NoDoubleSeat tables)
    (hun : gid ∉ seatAssignments tables)
    (htid : (tables.map TableModel.id).Nodup)
    (hcid : ∀ t ∈ tables, (t.chairs.map Chair.id).Nodup) :
    NoDoubleSeat (assignGuest tid cid (some gid) tables)
  ∧ (∀ t ∈ assignGuest tid cid (some gid) tables, t.id = tid →
      ∀ c ∈ t.chairs, c.id = cid → c.guestId = some gid)
  ∧ (∀ (i j : ℕ) (c : Chair),
      (tables[i]?.bind fun t => t.chairs[j]?) = some c →
      ((tables[i]?).map TableModel.id ≠ some tid ∨ c.id ≠ cid) →
      ((assignGuest tid cid (some gid) tables)[i]?.bind fun t => t.chairs[j]?)
        = some c) := by
  refine ⟨assign_preserves_nodup tid cid gid tables hnd hun htid hcid, ?_, ?_⟩
  · intro t ht htmatch c hc hcmatch
    rw [assignGuest_eq_map] at ht
    obtain ⟨t0, ht0, hteq⟩ := List.mem_map.mp ht
    by_cases h0 : t0.id = tid
    · rw [if_pos h0] at hteq
      rw [← hteq] at hc
      obtain ⟨c0, _, hceq⟩ := List.mem_map.mp hc
      by_cases hc0 : c0.id = cid
      · rw [← hceq]
        simp [setChairG, hc0]
      · rw [← hceq] at hcmatch
        simp [setChairG, hc0] at hcmatch
    · rw [if_neg h0] at hteq
      rw [← hteq] at htmatch
      exact absurd htmatch h0
  · intro i j c hc hor
    rw [assignGuest_eq_map, List.getElem?_map]
    cases hti : tables[i]? with
    | none =>
      rw [hti] at hc
      simp at hc
    | some t0 =>
      rw [hti] at hc
      simp only [Option.some_bind] at hc
      by_cases h0 : t0.id = tid
      · rcases hor with h1 | h2
        · exact absurd (by rw [hti, Option.map_some', h0]) h1
        · rw [Option.map_some', if_pos h0, Option.some_bind]
          show (t0.chairs.map (setChairG cid gid))[j]? = some c
          rw [List.getElem?_map, hc, Option.map_some']
          simp [setChairG, h2]
      · rw [Option.map_some', if_neg h0, Option.some_bind]
        exact hc

/-- Witness for the amended C1 at a concrete plan: assigning the unassigned
guest g2 to the empty chair c2 keeps the one-seat-per-guest invariant. -/
theorem assignGuest_from_pool_spec_witness :
    NoDoubleSeat (assignGuest "T" "c2" (some "g2") cexTables) :=
  (assignGuest_from_pool_spec "T" "c2" "g2" cexTables (by decide) (by decide)
    (by decide) (by decide)).1

end Seating

namespace Seating

theorem seatAssignments_append (a b : List TableModel) :
    seatAssignments (a ++ b) = seatAssignments a ++ seatAssignments b :=
  List.flatMap_append a b _

theorem mem_seat_of_mem_assigned (tables : List TableModel) (x : String)
    (hx : x ∈ assignedIds tables) : x ∈ seatAssignments tables := by
  rw [assignedIds, List.mem_flatMap] at hx
  obtain ⟨t, ht, hc⟩ := hx
  rw [List.mem_filterMap] at hc
  obtain ⟨c, hcm, hcv⟩ := hc
  rw [seatAssignments, List.mem_flatMap]
  refine ⟨t, ht, ?_⟩
  rw [chairAssigns, List.mem_filterMap]
  refine ⟨c, hcm, ?_⟩
  unfold truthyId at hcv
  cases hg : c.guestId with
  | none =>
    rw [hg] at hcv
    exact absurd hcv (by simp)
  | some s =>
    rw [hg] at hcv
    by_cases he : s.isEmpty
    · simp [he] at hcv
    · simp only [he, if_false, Bool.false_eq_true] at hcv
      exact hcv

theorem chairAssigns_sccTable_mem (fresh : String → String) (tid : String)
    (n : ℤ) (t : TableModel) (x : String)
    (hx : x ∈ chairAssigns (setChairsCountTable fresh tid n t).chairs) :
    x ∈ chairAssigns t.chairs := by
  unfold setChairsCountTable at hx
  split_ifs at hx
  · exact hx
  · dsimp only at hx
    rw [chairAssigns, List.filterMap_append] at hx
    rcases List.mem_append.mp hx with h | h
    · exact h
    · exfalso
      rw [List.filterMap_map] at h
      simp [Function.comp] at h
  · dsimp only at hx
    exact List.Sublist.mem hx ((List.take_sublist _ _).filterMap _)
  · exact hx

theorem mem_seat_scc (fresh : String → String) (tid : String) (n : ℤ)
    (l : List TableModel) (x : String)
    (hx : x ∈ seatAssignments (l.map (setChairsCountTable fresh tid n))) :
    x ∈ seatAssignments l := by
  rw [seatAssignments, List.mem_flatMap] at hx
  obtain ⟨t2, ht2, hc⟩ := hx
  obtain ⟨t0, ht0, hteq⟩ := List.mem_map.mp ht2
  rw [seatAssignments, List.mem_flatMap]
  refine ⟨t0, ht0, ?_⟩
  exact chairAssigns_sccTable_mem fresh tid n t0 x (hteq ▸ hc)

/-- C3: shrinking a table truncates its chairs from the end — the retained
chairs keep their identities and assignments in order — while every guest
whose chair was removed (and who is not seated elsewhere, per the one-seat
invariant) appears in the unassigned pool without being deleted from the
guest list; a guest on a retained chair stays out of the pool. -/
theorem setChairsCount_shrink_to_pool (fresh : String → String) (tid : String)
    (n : ℤ) (guests : List Guest) (tables : List TableModel) (t : TableModel)
    (g : Guest) (c : Chair)
    (ht : t ∈ tables) (hid : t.id = tid)
    (hshrink : (clampI n 2 20).toNat < t.chairs.length)
    (hc : c ∈ t.chairs.drop (clampI n 2 20).toNat)
    (hg : c.guestId = some g.id)
    (hgm : g ∈ guests)
    (hnd : NoDoubleSeat tables) :
    g ∈ unassignedGuests guests (setChairsCount fresh tid n tables)
  ∧ (∀ i : ℕ, tables[i]? = some t →
      (setChairsCount fresh tid n tables)[i]?
        = some { t with chairs := t.chairs.take (clampI n 2 20).toNat })
  ∧ (∀ g' ∈ guests, ∀ c' ∈ t.chairs.take (clampI n 2 20).toNat,
      c'.guestId = some g'.id → g'.id ≠ "" →
      g' ∉ unassignedGuests guests (setChairsCount fresh tid n tables)) := by
  have hftable : setChairsCountTable fresh tid n t
      = { t with chairs := t.chairs.take (clampI n 2 20).toNat } := by
    unfold setChairsCountTable
    rw [if_pos hid, if_neg (by omega), if_neg (by omega)]
  refine ⟨?_, ?_, ?_⟩
  · obtain ⟨l1, l2, hsplit⟩ := List.append_of_mem ht
    have hnotmem : g.id ∉ assignedIds (setChairsCount fresh tid n tables) := by
      intro hmem
      have hseatm := mem_seat_of_mem_assigned _ _ hmem
      rw [hsplit, setChairsCount, List.map_append, List.map_cons,
        seatAssignments_append, seatAssignments_cons, hftable] at hseatm
      have hcount : (seatAssignments tables).count g.id ≤ 1 :=
        List.nodup_iff_count_le_one.mp hnd g.id
      have hdropmem : g.id ∈ chairAssigns (t.chairs.drop (clampI n 2 20).toNat) :=
        List.mem_filterMap.mpr ⟨c, hc, hg⟩
      have hdropcount : 0 < (chairAssigns (t.chairs.drop (clampI n 2 20).toNat)).count g.id :=
        List.count_pos_iff.mpr hdropmem
      have hchairs : chairAssigns t.chairs
          = chairAssigns (t.chairs.take (clampI n 2 20).toNat)
            ++ chairAssigns (t.chairs.drop (clampI n 2 20).toNat) := by
        conv_lhs => rw [← List.take_append_drop (clampI n 2 20).toNat t.chairs]
        rw [chairAssigns, List.filterMap_append]
        rfl
      rw [hsplit, seatAssignments_append, seatAssignments_cons, hchairs,
        List.count_append, List.count_append, List.count_append] at hcount
      have hz1 : (seatAssignments l1).count g.id = 0 := by omega
      have hz2 : (chairAssigns (t.chairs.take (clampI n 2 20).toNat)).count g.id = 0 := by
        omega
      have hz3 : (seatAssignments l2).count g.id = 0 := by omega
      rcases List.mem_append.mp hseatm with h | h
      · exact absurd (mem_seat_scc fresh tid n l1 g.id h)
          (List.count_eq_zero.mp hz1)
      · rcases List.mem_append.mp h with h2 | h2
        · exact absurd h2 (List.count_eq_zero.mp hz2)
        · exact absurd (mem_seat_scc fresh tid n l2 g.id h2)
            (List.count_eq_zero.mp hz3)
    rw [unassignedGuests, List.mem_filter]
    refine ⟨hgm, ?_⟩
    simpa using hnotmem
  · intro i hi
    rw [setChairsCount, List.getElem?_map, hi, Option.map_some', hftable]
  · intro g' hg'm c' hc' hcg' hne hcontra
    rw [unassignedGuests, List.mem_filter] at hcontra
    have hmem : g'.id ∈ assignedIds (setChairsCount fresh tid n tables) := by
      rw [assignedIds, List.mem_flatMap]
      refine ⟨setChairsCountTable fresh tid n t, List.mem_map_of_mem _ ht, ?_⟩
      rw [hftable]
      dsimp only
      rw [List.mem_filterMap]
      refine ⟨c', hc', ?_⟩
      rw [hcg']
      unfold truthyId
      have : g'.id.isEmpty = false := by
        rw [← Bool.not_eq_true, String.isEmpty_iff]
        exact hne
      simp [this]
    have hb := hcontra.2
    rw [Bool.not_eq_true'] at hb
    exact absurd hmem (by simpa using hb)

end Seating

namespace Seating

/-- Sample guests for the shrink scenario. -/
def shrinkGuests : List Guest :=
  [{ id := "h1", name := "Ann", gender := .female },
   { id := "h2", name := "Ben", gender := .male },
   { id := "h3", name := "Cal", gender := .male },
   { id := "h4", name := "Dina", gender := .female }]

/-- Sample 8-chair table with guests on the first four chairs. -/
def shrinkTable : TableModel :=
  { id := "W", number := 3, shape := .round, numberStyle := .classic,
    x := 0, y := 0, rotation := 0,
    chairs := [{ id := "w1", guestId := some "h1" },
               { id := "w2", guestId := some "h2" },
               { id := "w3", guestId := some "h3" },
               { id := "w4", guestId := some "h4" },
               { id := "w5" }, { id := "w6" }, { id := "w7" }, { id := "w8" }] }

/-- Witness for C3: shrinking the 8-chair table to 3 chairs moves Dina
(seated on removed chair w4) into the unassigned pool. -/
theorem setChairsCount_shrink_to_pool_witness :
    ({ id := "h4", name := "Dina", gender := .female : Guest })
      ∈ unassignedGuests shrinkGuests (setChairsCount (fun s => s) "W" 3 [shrinkTable]) :=
  (setChairsCount_shrink_to_pool (fun s => s) "W" 3 shrinkGuests [shrinkTable]
    shrinkTable { id := "h4", name := "Dina", gender := .female }
    { id := "w4", guestId := some "h4" }
    (by decide) (by decide) (by decide) (by decide) (by decide) (by decide)
    (by decide)).1

end Seating

namespace Seating

/-- C8: the CSV rows are the header, then one row per seat (occupied or
empty) with tables in ascending table-number order and 1-based seat numbers,
then one row per unassigned guest with empty table and seat columns; a cell
is quoted (with internal quotes doubled) exactly when it contains a comma,
quote, or newline character, and left unchanged otherwise; the concrete
one-table/2-seat/1-assigned plan with one unassigned guest yields exactly 3
data rows. -/
theorem exportToCsv_spec (guests : List Guest) (tables : List TableModel) :
    ((guestsByTable guests tables).map TableView.tableNumber).Sorted (· ≤ ·)
  ∧ (∀ tv ∈ guestsByTable guests tables,
      tv.seats.map SeatView.seatNumber = List.range' 1 tv.seats.length)
  ∧ (exportRows guests tables
      = csvHeader ::
          ((guestsByTable guests tables).flatMap fun tv =>
            tv.seats.map (seatRow tv.tableNumber tv.isVip))
          ++ (unassignedGuests guests tables).map unassignedRow)
  ∧ ((exportRows guests tables).length
      = 1 + (tables.map fun t => t.chairs.length).sum
          + (unassignedGuests guests tables).length)
  ∧ (∀ s : String, escapeCsvCell s
      = if specNeedsQuoting s then "\"" ++ doubleQuotes s ++ "\"" else s)
  ∧ exportRows [exG1, exG2] [cexTable]
      = [csvHeader,
         ["1", "", "1", "Alice", "female"],
         ["1", "", "2", "", ""],
         ["", "", "", "Bob", "male"]] := by
  refine ⟨?_, ?_, rfl, ?_, ?_, by decide⟩
  · rw [guestsByTable, List.map_map]
    exact List.Pairwise.map _ (fun a b h => h)
      (List.sorted_insertionSort tableLE tables)
  · intro tv htv
    rw [guestsByTable] at htv
    obtain ⟨t0, _, rfl⟩ := List.mem_map.mp htv
    show (seatViewsOf guests t0.chairs).map SeatView.seatNumber
      = List.range' 1 (seatViewsOf guests t0.chairs).length
    have hlen : (seatViewsOf guests t0.chairs).length = t0.chairs.length := by
      simp [seatViewsOf]
    rw [hlen, seatViewsOf, List.map_map]
    have hfun : (SeatView.seatNumber ∘ fun ic : ℕ × Chair =>
        ({ chairId := ic.2.id, seatNumber := ic.1 + 1,
           guest := match truthyId ic.2.guestId with
             | some gid => guests.find? fun g => g.id == gid
             | none => none } : SeatView))
        = fun ic : ℕ × Chair => ic.1 + 1 := rfl
    rw [hfun]
    have h2 : (fun ic : ℕ × Chair => ic.1 + 1)
        = (fun i : ℕ => i + 1) ∘ Prod.fst := rfl
    rw [h2, ← List.map_map, List.enum_map_fst, List.range'_eq_map_range]
    apply List.map_congr_left
    intro a _
    omega
  · have h1 : ((guestsByTable guests tables).flatMap fun tv =>
        tv.seats.map (seatRow tv.tableNumber tv.isVip)).length
        = ((tables.map fun t => t.chairs.length)).sum := by
      rw [List.length_flatMap, guestsByTable, List.map_map]
      have hperm : ((sortTables tables).map fun t => t.chairs.length).sum
          = ((tables.map fun t => t.chairs.length)).sum :=
        List.Perm.sum_eq (List.Perm.map _ (List.perm_insertionSort tableLE tables))
      rw [← hperm]
      congr 1
      apply List.map_congr_left
      intro t _
      simp [seatViewsOf]
    rw [exportRows, List.length_append, List.length_cons, List.length_map, h1]
    omega
  · intro s
    have heq : needsQuoting s = specNeedsQuoting s := by
      rw [needsQuoting, specNeedsQuoting, Bool.eq_iff_iff,
        List.any_eq_true, List.any_eq_true]
      constructor
      · rintro ⟨c, hc, hp⟩
        refine ⟨c, hc, ?_⟩
        revert hp
        simp [csvSpecialChar]
        tauto
      · rintro ⟨c, hc, hp⟩
        refine ⟨c, hc, ?_⟩
        revert hp
        simp [csvSpecialChar]
        tauto
    rw [escapeCsvCell, heq]

/-- Witness for C8: the seat numbers of the concrete table view of the
sample plan are exactly [1, 2]. -/
theorem exportToCsv_spec_witness :
    (seatViewsOf [exG1, exG2] cexTable.chairs).map SeatView.seatNumber
      = List.range' 1 (seatViewsOf [exG1, exG2] cexTable.chairs).length := by
  have h := (exportToCsv_spec [exG1, exG2] [cexTable]).2.1
  exact h
    { tableId := "T", tableNumber := 1, shape := .round, isVip := false,
      seats := seatViewsOf [exG1, exG2] cexTable.chairs } (by decide)

end Seating
